import Mathlib

/-
Verification of the audio feedback example (`examples/asio-feedback.rs`).

The program wires an input (capture) audio stream to an output (playback)
stream through a bounded single-producer/single-consumer ring buffer
(`ringbuf::HeapRb<i32>`), pre-filled with a latency budget of zero samples.

Shallow embedding:
  * the ring buffer is modelled functionally as a capacity plus the list of
    buffered samples, oldest first; `push` appends when there is room and
    fails otherwise; `pop` removes the oldest sample;
  * the `f32` latency arithmetic of `main` (lines 58-59) is modelled over
    the exact rationals, with the `as usize` cast modelled as
    `Int.floor`/`Int.toNat` (truncation toward zero, saturating at 0 for
    negative values, matching Rust's float-to-usize cast);
  * the two real-time callbacks (`input_data_fn`, `output_data_fn`) are
    modelled as sequential functions on the buffer state, one callback
    invocation at a time, returning the new buffer state together with
    the diagnostic flag the callback sets;
  * the startup path of `main` (format assertion, stream configuration,
    buffer construction and pre-fill, stream building) is modelled as a
    fallible function from a device description to a session, the error
    carrying how many streams had been built when the failure occurred.
-/

/-- Model of `ringbuf::HeapRb<i32>`: a bounded FIFO queue of samples.
`data` lists the buffered samples oldest first. -/
structure HeapRb where
  capacity : Nat
  data : List Int
deriving DecidableEq, Repr

/-- `HeapRb::new(capacity)`: an empty buffer of the given capacity. -/
def HeapRb.new (capacity : Nat) : HeapRb :=
  { capacity := capacity, data := [] }

/-- Number of free slots in the buffer. -/
def HeapRb.free (rb : HeapRb) : Nat :=
  rb.capacity - rb.data.length

/-- Number of buffered samples (occupancy). -/
def HeapRb.occupancy (rb : HeapRb) : Nat :=
  rb.data.length

/-- `Producer::push`: appends the sample when the buffer is not full,
fails (returns `none`, modelling `Err`) when it is full, leaving the
buffer unchanged.  Non-blocking by construction. -/
def HeapRb.push (rb : HeapRb) (s : Int) : Option HeapRb :=
  if rb.data.length < rb.capacity then
    some { capacity := rb.capacity, data := rb.data ++ [s] }
  else
    none

/-- `Consumer::pop`: removes and returns the oldest sample, or `none`
when the buffer is empty.  Non-blocking by construction. -/
def HeapRb.pop (rb : HeapRb) : Option (Int × HeapRb) :=
  match rb.data with
  | [] => none
  | x :: xs => some (x, { capacity := rb.capacity, data := xs })

/-- Line 58: `let latency_frames = (latency_ms / 1_000.0) * config.sample_rate.0 as f32;`
modelled over exact rationals. -/
def latency_frames (latency_ms : ℚ) (sample_rate : ℕ) : ℚ :=
  (latency_ms / 1000) * sample_rate

/-- Line 59: `let latency_samples = latency_frames as usize * config.channels as usize;`
The `as usize` cast truncates toward zero (saturating at zero below),
which on the nonnegative values at hand is the floor. -/
def latency_samples (latency_ms : ℚ) (sample_rate channels : ℕ) : ℕ :=
  (Int.floor (latency_frames latency_ms sample_rate)).toNat * channels

/-- The latency sample count as the specification document words it:
`round((latency_ms/1000) x sample_rate x channels)`.  Stated from the
spec, to be compared with `latency_samples` taken from the code. -/
def spec_latency_samples (latency_ms : ℚ) (sample_rate channels : ℕ) : ℤ :=
  round ((latency_ms / 1000) * sample_rate * channels)

/-- Lines 66-70: the pre-fill loop.  Pushes `n` zero samples; a failing
push corresponds to the `.unwrap()` panicking, modelled as `none`. -/
def prefill : HeapRb → Nat → Option HeapRb
  | rb, 0 => some rb
  | rb, Nat.succ n =>
    match rb.push 0 with
    | some rb2 => prefill rb2 n
    | none => none

example : latency_samples 150 48000 2 = 14400 := by
  norm_num [latency_samples, latency_frames]
  decide

example : (HeapRb.new 4).push 7 = some { capacity := 4, data := [7] } := by decide

example : prefill (HeapRb.new 2) 1 =
    some { capacity := 2, data := [0] } := by decide

/-- Lines 72-82, the capture callback loop: for each sample of the block
attempt a push; a failed push sets the `output_fell_behind` flag and the
loop continues with the next sample.  `flag` is the running value of the
local flag. -/
def input_loop : HeapRb → Bool → List Int → HeapRb × Bool
  | rb, flag, [] => (rb, flag)
  | rb, flag, sample :: rest =>
    match rb.push sample with
    | some rb2 => input_loop rb2 flag rest
    | none => input_loop rb true rest

/-- Lines 72-82, `input_data_fn`: process a delivered block starting with
the flag cleared; the returned Bool records whether the diagnostic
("output stream fell behind") is emitted after the block. -/
def input_data_fn (rb : HeapRb) (data : List Int) : HeapRb × Bool :=
  input_loop rb false data

/-- Lines 84-98, `output_data_fn`: fill a block of `len` output slots.
Each slot takes the popped sample, or `0` when the pop fails, a failure
setting the `input_fell_behind` flag.  Returns the block written, the
buffer afterwards, and whether the diagnostic ("input stream fell behind")
is emitted after the block. -/
def output_data_fn : HeapRb → Nat → List Int × HeapRb × Bool
  | rb, 0 => ([], rb, false)
  | rb, Nat.succ n =>
    match rb.pop with
    | some (s, rb2) =>
      let r := output_data_fn rb2 n
      (s :: r.1, r.2.1, r.2.2)
    | none =>
      let r := output_data_fn rb n
      (0 :: r.1, r.2.1, true)

/-- Push a whole sequence of samples, failing if any push fails (used to
state the round-trip property C3). -/
def pushList : HeapRb → List Int → Option HeapRb
  | rb, [] => some rb
  | rb, x :: xs =>
    match rb.push x with
    | some rb2 => pushList rb2 xs
    | none => none

/-- Pop `n` samples, stopping early when the buffer empties; returns the
popped samples in order and the remaining buffer (used to state C3). -/
def popN : HeapRb → Nat → List Int × HeapRb
  | rb, 0 => ([], rb)
  | rb, Nat.succ n =>
    match rb.pop with
    | some (x, rb2) =>
      let r := popN rb2 n
      (x :: r.1, r.2)
    | none => ([], rb)

/-- `cpal::StreamConfig`: channel count, sample rate, and buffer size
(`none` modelling `BufferSize::Default`, `some n` a fixed size). -/
structure StreamConfig where
  channels : Nat
  sample_rate : Nat
  buffer_size : Option Nat
deriving DecidableEq, Repr

/-- The aspects of the ASIO device the startup path of `main` reads: the
sample format reported for its input configuration (as the string the
assertion on lines 44-47 compares), and its default input configuration. -/
structure Device where
  sample_format : String
  default_channels : Nat
  default_sample_rate : Nat
  default_buffer_size : Option Nat
deriving DecidableEq, Repr

/-- Line 50: `asio_device.default_input_config()?.into()`. -/
def default_input_config (dev : Device) : StreamConfig :=
  { channels := dev.default_channels
    sample_rate := dev.default_sample_rate
    buffer_size := dev.default_buffer_size }

/-- `std::any::type_name::<SampleFormat>()` with `type SampleFormat = i32`
(line 20): the string the format assertion compares against. -/
def sample_format_name : String := "i32"

/-- Line 22: `let latency_ms: f32 = 150.0;`. -/
def main_latency_ms : ℚ := 150

/-- Lines 51-55: the stream configuration `main` builds, with the
hard-coded channel count (line 21) and the sample rate and buffer size
of the device's default input configuration. -/
def make_config (dev : Device) : StreamConfig :=
  { channels := 2
    sample_rate := (default_input_config dev).sample_rate
    buffer_size := (default_input_config dev).buffer_size }

/-- The session once both streams are built: the configuration passed to
`build_input_stream`, the one passed to `build_output_stream`, and the
ring buffer as pre-filled before the callbacks were handed out. -/
structure Session where
  input_config : StreamConfig
  output_config : StreamConfig
  ring : HeapRb
deriving DecidableEq, Repr

/-- Lines 37-107, the startup path of `main` up to building both streams:
check the device's sample format against the expected `i32` (the
`assert_eq!`, modelled as an error rather than a panic), build the stream
configuration, compute the latency budget, construct and pre-fill the
ring buffer, then build the two streams with the same configuration.
An error carries the number of streams already built when the failure
occurred (the assertion and the pre-fill `.unwrap()` both fire before
`build_input_stream` is reached). -/
def main_startup (dev : Device) : Except (String × Nat) Session :=
  if dev.sample_format = sample_format_name then
    let config := make_config dev
    let n := latency_samples main_latency_ms config.sample_rate config.channels
    match prefill (HeapRb.new (n * 2)) n with
    | some ring => Except.ok { input_config := config, output_config := config, ring := ring }
    | none => Except.error ("pre-fill push failed", 0)
  else
    Except.error ("assertion failed: sample format mismatch", 0)

example : main_startup { sample_format := "i32"
                         default_channels := 1
                         default_sample_rate := 0
                         default_buffer_size := none } =
    Except.ok { input_config := { channels := 2, sample_rate := 0, buffer_size := none }
                output_config := { channels := 2, sample_rate := 0, buffer_size := none }
                ring := { capacity := 0, data := [] } } := by
  norm_num [main_startup, make_config, default_input_config, sample_format_name,
    main_latency_ms, latency_samples, latency_frames, prefill, HeapRb.new]

/-! ### Characterisation lemmas for the buffer operations -/

lemma prefill_ok (k : Nat) : ∀ (cap : Nat) (l : List Int),
    l.length + k ≤ cap →
    prefill { capacity := cap, data := l } k =
      some { capacity := cap, data := l ++ List.replicate k 0 } := by
  induction k with
  | zero => intro cap l _; simp [prefill]
  | succ k ih =>
    intro cap l h
    have hlt : l.length < cap := by omega
    have hpush : HeapRb.push { capacity := cap, data := l } 0 =
        some { capacity := cap, data := l ++ [0] } := by
      simp [HeapRb.push, hlt]
    have step : prefill { capacity := cap, data := l } (k + 1) =
        prefill { capacity := cap, data := l ++ [0] } k := by
      simp only [prefill]; rw [hpush]
    rw [step, ih cap (l ++ [0]) (by simp; omega)]
    simp [List.replicate_succ, List.append_assoc]

lemma pushList_ok : ∀ (xs : List Int) (cap : Nat) (l : List Int),
    l.length + xs.length ≤ cap →
    pushList { capacity := cap, data := l } xs =
      some { capacity := cap, data := l ++ xs } := by
  intro xs
  induction xs with
  | nil => intro cap l _; simp [pushList]
  | cons x xs ih =>
    intro cap l h
    simp only [List.length_cons] at h
    have hlt : l.length < cap := by omega
    have hpush : HeapRb.push { capacity := cap, data := l } x =
        some { capacity := cap, data := l ++ [x] } := by
      simp [HeapRb.push, hlt]
    have step : pushList { capacity := cap, data := l } (x :: xs) =
        pushList { capacity := cap, data := l ++ [x] } xs := by
      simp only [pushList]; rw [hpush]
    rw [step, ih cap (l ++ [x]) (by simp; omega)]
    simp [List.append_assoc]

lemma popN_eq (n : Nat) : ∀ (cap : Nat) (l : List Int),
    popN { capacity := cap, data := l } n =
      (l.take n, { capacity := cap, data := l.drop n }) := by
  induction n with
  | zero => intro cap l; simp [popN]
  | succ n ih =>
    intro cap l
    cases l with
    | nil => simp [popN, HeapRb.pop]
    | cons x xs => simp [popN, HeapRb.pop, ih]

lemma input_loop_eq : ∀ (data : List Int) (cap : Nat) (l : List Int) (flag : Bool),
    l.length ≤ cap →
    input_loop { capacity := cap, data := l } flag data =
      ({ capacity := cap, data := l ++ data.take (cap - l.length) },
       flag || decide (cap - l.length < data.length)) := by
  intro data
  induction data with
  | nil => intro cap l flag h; simp [input_loop]
  | cons s rest ih =>
    intro cap l flag h
    by_cases hlt : l.length < cap
    · have hpush : HeapRb.push { capacity := cap, data := l } s =
          some { capacity := cap, data := l ++ [s] } := by
        simp [HeapRb.push, hlt]
      have step : input_loop { capacity := cap, data := l } flag (s :: rest) =
          input_loop { capacity := cap, data := l ++ [s] } flag rest := by
        simp only [input_loop]; rw [hpush]
      rw [step, ih cap (l ++ [s]) flag (by simp; omega)]
      have hk : cap - l.length = (cap - (l.length + 1)) + 1 := by omega
      rw [hk]
      simp [List.append_assoc, Nat.succ_lt_succ_iff]
    · have hpush : HeapRb.push { capacity := cap, data := l } s = none := by
        simp [HeapRb.push, hlt]
      have h0 : cap - l.length = 0 := by omega
      have step : input_loop { capacity := cap, data := l } flag (s :: rest) =
          input_loop { capacity := cap, data := l } true rest := by
        simp only [input_loop]; rw [hpush]
      rw [step, ih cap l true h]
      rw [h0]
      simp

lemma output_data_fn_eq : ∀ (n cap : Nat) (l : List Int),
    output_data_fn { capacity := cap, data := l } n =
      (l.take n ++ List.replicate (n - l.length) 0,
       { capacity := cap, data := l.drop n },
       decide (l.length < n)) := by
  intro n
  induction n with
  | zero => intro cap l; simp [output_data_fn]
  | succ n ih =>
    intro cap l
    cases l with
    | nil => simp [output_data_fn, HeapRb.pop, ih, List.replicate_succ]
    | cons x xs =>
      simp [output_data_fn, HeapRb.pop, ih, Nat.succ_sub_succ, Nat.succ_lt_succ_iff]

/-! ### The claims -/

/-- C1 as stated is false: the code truncates the frame count to an
integer and then multiplies by the channel count, which is not
`round((latency_ms/1000) x sample_rate x channels)`.  At
`latency_ms = 250`, `sample_rate = 44102`, `channels = 2` (all values
whose `f32` arithmetic is exact) the code computes
`trunc(11025.5) * 2 = 22050` while the spec formula gives
`round(22051) = 22051`. -/
theorem c1_counterexample :
    ¬ ((latency_samples 250 44102 2 : ℤ) = spec_latency_samples 250 44102 2 ∧
       (HeapRb.new (latency_samples 250 44102 2 * 2)).capacity =
         2 * latency_samples 250 44102 2) := by
  intro hc
  have hfr : latency_frames 250 44102 = 22051 / 2 := by
    unfold latency_frames; norm_num
  have h1 : latency_samples 250 44102 2 = 22050 := by
    unfold latency_samples
    rw [hfr, Rat.floor_def]
    norm_num
    decide
  have h2 : spec_latency_samples 250 44102 2 = 22051 := by
    unfold spec_latency_samples
    norm_num
  rw [h1, h2] at hc
  exact absurd hc.1 (by norm_num)

/-- C1 (amended): for every latency_ms > 0, sample rate, and channel
count, the computed latency sample count equals the frame count
`latency_ms x sample_rate / 1000` truncated to an integer and then
multiplied by the channel count (truncation happens before the channel
multiplication, not `round` after it), and the ring buffer's capacity is
exactly 2 x that latency sample count. -/
theorem c1_amended (latency_ms : ℚ) (sample_rate channels : ℕ)
    (hpos : 0 < latency_ms) :
    latency_samples latency_ms sample_rate channels =
      (Int.floor (latency_ms * sample_rate / 1000)).toNat * channels ∧
    (HeapRb.new (latency_samples latency_ms sample_rate channels * 2)).capacity =
      2 * latency_samples latency_ms sample_rate channels := by
  constructor
  · have harg : latency_frames latency_ms sample_rate =
        latency_ms * sample_rate / 1000 := by
      unfold latency_frames; ring
    unfold latency_samples
    rw [harg]
  · simp [HeapRb.new, Nat.mul_comm]

/-- Witness for C1 (amended) at the program's own constants
`latency_ms = 150`, `sample_rate = 48000`, `channels = 2`. -/
theorem c1_witness :
    (0 : ℚ) < 150 ∧
    (latency_samples 150 48000 2 =
       (Int.floor ((150 : ℚ) * (48000 : ℕ) / 1000)).toNat * 2 ∧
     (HeapRb.new (latency_samples 150 48000 2 * 2)).capacity =
       2 * latency_samples 150 48000 2) :=
  ⟨by norm_num, c1_amended 150 48000 2 (by norm_num)⟩

/-- C2: immediately after construction and pre-fill, and before any
callback push or pop, the ring buffer contains exactly
`latency_sample_count` zero-valued samples and has exactly
`capacity - latency_sample_count` free slots. -/
theorem c2_prefilled_buffer (n : Nat) :
    ∃ rb : HeapRb, prefill (HeapRb.new (n * 2)) n = some rb ∧
      rb.data = List.replicate n 0 ∧
      rb.occupancy = n ∧
      rb.free = rb.capacity - n := by
  refine ⟨{ capacity := n * 2, data := List.replicate n 0 }, ?_, rfl, ?_, ?_⟩
  · have h := prefill_ok n (n * 2) [] (by simp only [List.length_nil]; omega)
    simpa [HeapRb.new] using h
  · simp [HeapRb.occupancy]
  · simp [HeapRb.free]

/-- C7: during pre-fill no push ever fails; since the capacity is
constructed as exactly 2 x the pre-fill count, the pre-fill count can
never exceed the capacity, so the error branch (the `.unwrap()` panic)
is unreachable. -/
theorem c7_prefill_never_fails (n : Nat) :
    prefill (HeapRb.new (n * 2)) n ≠ none := by
  intro hc
  have h := prefill_ok n (n * 2) [] (by simp only [List.length_nil]; omega)
  simp only [HeapRb.new] at hc
  rw [h] at hc
  exact Option.noConfusion hc

/-- C9: the computed latency sample count is always an exact multiple of
the channel count, because the frame count is truncated to an integer
before being multiplied by the channel count. -/
theorem c9_channel_multiple (latency_ms : ℚ) (sample_rate channels : ℕ) :
    channels ∣ latency_samples latency_ms sample_rate channels := by
  unfold latency_samples
  exact dvd_mul_left _ _

/-- C3 as stated is false when the buffer already holds samples: the pops
return the oldest buffered samples first, not the newly pushed ones.
With a buffer of capacity 2 already holding `[5]`, pushing `[7]`
(1 <= free capacity = 1) and then popping 1 sample yields `[5]`,
not `[7]`. -/
theorem c3_counterexample :
    ¬ (∀ (rb : HeapRb) (xs : List Int), xs.length ≤ rb.free →
        ∀ rb2 : HeapRb, pushList rb xs = some rb2 →
          (popN rb2 xs.length).1 = xs) := by
  intro hclaim
  have h := hclaim { capacity := 2, data := [5] } [7] (by decide)
      { capacity := 2, data := [5, 7] } (by decide)
  revert h
  decide

/-- C3 (amended): pushing a sequence of N samples (N <= free capacity,
every push succeeding) and then popping until the buffer is empty yields
the previously buffered samples followed by the pushed sequence, in
order, with no sample lost or reordered; in particular, popping N
samples from an initially empty buffer yields exactly the pushed
sequence. -/
theorem c3_amended (rb : HeapRb) (xs : List Int)
    (hwf : rb.data.length ≤ rb.capacity) (hroom : xs.length ≤ rb.free) :
    ∃ rb2 : HeapRb, pushList rb xs = some rb2 ∧
      (popN rb2 (rb.data.length + xs.length)).1 = rb.data ++ xs ∧
      (popN rb2 (rb.data.length + xs.length)).2.data = [] := by
  obtain ⟨cap, l⟩ := rb
  simp only [HeapRb.free] at hroom
  simp only at hwf hroom ⊢
  have hlen : l.length + xs.length ≤ cap := by omega
  refine ⟨{ capacity := cap, data := l ++ xs }, pushList_ok xs cap l hlen, ?_, ?_⟩
  · rw [popN_eq]
    have h : l.length + xs.length = (l ++ xs).length := (List.length_append _ _).symm
    rw [h, List.take_length]
  · rw [popN_eq]
    have h : l.length + xs.length = (l ++ xs).length := (List.length_append _ _).symm
    rw [h, List.drop_length]

/-- Witness for C3 (amended): buffer of capacity 4 holding `[1, 2]`,
pushing `[3, 4]` and draining the buffer yields `[1, 2] ++ [3, 4]`. -/
theorem c3_witness :
    ∃ rb2 : HeapRb, pushList { capacity := 4, data := [1, 2] } [3, 4] = some rb2 ∧
      (popN rb2 (2 + 2)).1 = [1, 2] ++ [3, 4] ∧
      (popN rb2 (2 + 2)).2.data = [] :=
  c3_amended { capacity := 4, data := [1, 2] } [3, 4] (by decide) (by decide)

/-- C4: for every input block delivered to the capture handler, the
handler appends exactly the samples that fit (the first `free` ones),
drops exactly the newest ones (the rest of the block), leaves the
previously buffered data unchanged as a prefix and the capacity
untouched, and emits the overflow diagnostic after the block if and only
if at least one push failed, i.e. iff the block is longer than the free
capacity. -/
theorem c4_capture_block (rb : HeapRb) (data : List Int)
    (hwf : rb.data.length ≤ rb.capacity) :
    (input_data_fn rb data).1.capacity = rb.capacity ∧
    (input_data_fn rb data).1.data = rb.data ++ data.take rb.free ∧
    rb.data ++ data = (input_data_fn rb data).1.data ++ data.drop rb.free ∧
    ((input_data_fn rb data).2 = true ↔ rb.free < data.length) := by
  obtain ⟨cap, l⟩ := rb
  simp only at hwf
  have h := input_loop_eq data cap l false hwf
  refine ⟨?_, ?_, ?_, ?_⟩
  · simp [input_data_fn, h, HeapRb.free]
  · simp [input_data_fn, h, HeapRb.free]
  · simp only [input_data_fn, h, HeapRb.free]
    rw [List.append_assoc, List.take_append_drop]
  · simp [input_data_fn, h, HeapRb.free]

/-- Witness for C4: capacity 3 holding `[1, 2]`, one free slot, block
`[10, 20, 30]`: `10` is buffered, `20` and `30` are dropped, the old
data survives, and the diagnostic fires. -/
theorem c4_witness :
    (input_data_fn { capacity := 3, data := [1, 2] } [10, 20, 30]).1.capacity = 3 ∧
    (input_data_fn { capacity := 3, data := [1, 2] } [10, 20, 30]).1.data =
      [1, 2] ++ [10] ∧
    ([1, 2] : List Int) ++ [10, 20, 30] =
      (input_data_fn { capacity := 3, data := [1, 2] } [10, 20, 30]).1.data ++ [20, 30] ∧
    ((input_data_fn { capacity := 3, data := [1, 2] } [10, 20, 30]).2 = true ↔ 1 < 3) :=
  c4_capture_block { capacity := 3, data := [1, 2] } [10, 20, 30] (by decide)

/-- C5: for every output block requested from the playback handler,
every slot of the block is written, each slot whose pop failed (those at
or past the initial occupancy) is written with exactly a zero sample,
and the underflow diagnostic is emitted after the block if and only if
at least one pop failed, i.e. iff the block is longer than the initial
occupancy. -/
theorem c5_playback_block (rb : HeapRb) (len : Nat) :
    (output_data_fn rb len).1.length = len ∧
    (∀ i, rb.occupancy ≤ i → i < len → (output_data_fn rb len).1.getD i 1 = 0) ∧
    ((output_data_fn rb len).2.2 = true ↔ rb.occupancy < len) := by
  obtain ⟨cap, l⟩ := rb
  rw [output_data_fn_eq]
  simp only [HeapRb.occupancy]
  refine ⟨?_, ?_, ?_⟩
  · simp only [List.length_append, List.length_take, List.length_replicate]
    omega
  · intro i h1 h2
    have hmin : (l.take len).length ≤ i := by
      simp only [List.length_take]; omega
    rw [List.getD_append_right _ _ _ _ hmin]
    have hidx : i - (l.take len).length < (List.replicate (len - l.length) (0 : Int)).length := by
      simp only [List.length_take, List.length_replicate]; omega
    rw [List.getD_eq_getElem _ _ hidx]
    simp
  · simp

/-- Witness for C5: capacity 4 holding `[9]`, block of 3 slots: the block
has length 3, the slot at index 2 (past the single buffered sample) is
zero, and the diagnostic fires. -/
theorem c5_witness :
    (output_data_fn { capacity := 4, data := [9] } 3).1.length = 3 ∧
    (output_data_fn { capacity := 4, data := [9] } 3).1.getD 2 1 = 0 ∧
    ((output_data_fn { capacity := 4, data := [9] } 3).2.2 = true ↔ 1 < 3) :=
  ⟨(c5_playback_block { capacity := 4, data := [9] } 3).1,
   (c5_playback_block { capacity := 4, data := [9] } 3).2.1 2 (by decide) (by decide),
   (c5_playback_block { capacity := 4, data := [9] } 3).2.2⟩

/-- C6: if the device's reported sample representation differs from the
fixed expected sample type `i32`, startup fails (the assertion fires)
before any stream is built: the error carries a stream count of 0, so no
partial stream is left running. -/
theorem c6_format_mismatch (dev : Device)
    (h : dev.sample_format ≠ sample_format_name) :
    main_startup dev = Except.error ("assertion failed: sample format mismatch", 0) := by
  simp [main_startup, h]

/-- Witness for C6: a device reporting `f32` makes startup fail with no
stream built. -/
theorem c6_witness :
    ({ sample_format := "f32"
       default_channels := 2
       default_sample_rate := 48000
       default_buffer_size := none } : Device).sample_format ≠ sample_format_name ∧
    main_startup { sample_format := "f32"
                   default_channels := 2
                   default_sample_rate := 48000
                   default_buffer_size := none } =
      Except.error ("assertion failed: sample format mismatch", 0) :=
  ⟨by decide,
   c6_format_mismatch { sample_format := "f32"
                        default_channels := 2
                        default_sample_rate := 48000
                        default_buffer_size := none } (by decide)⟩

/-- C8 as stated is false: the channel count of the stream configuration
is not taken from the device's default input configuration; it is the
hard-coded constant 2 (line 21).  A device whose default input
configuration has 1 channel still yields a configuration with 2
channels. -/
theorem c8_counterexample :
    ¬ (∀ (dev : Device) (s : Session), main_startup dev = Except.ok s →
        s.input_config.channels = (default_input_config dev).channels ∧
        s.input_config.sample_rate = (default_input_config dev).sample_rate ∧
        s.input_config.buffer_size = (default_input_config dev).buffer_size ∧
        s.output_config = s.input_config) := by
  intro hclaim
  have hok : main_startup { sample_format := "i32"
                            default_channels := 1
                            default_sample_rate := 0
                            default_buffer_size := none } =
      Except.ok { input_config := { channels := 2, sample_rate := 0, buffer_size := none }
                  output_config := { channels := 2, sample_rate := 0, buffer_size := none }
                  ring := { capacity := 0, data := [] } } := by
    norm_num [main_startup, make_config, default_input_config, sample_format_name,
      main_latency_ms, latency_samples, latency_frames, prefill, HeapRb.new]
  have h := hclaim _ _ hok
  simp [default_input_config] at h

/-- C8 (amended): the sample rate and buffer size of the stream
configuration are taken once from the device's default input
configuration, the channel count is the hard-coded constant 2, and the
very same configuration is passed to both the input and the output
stream build. -/
theorem c8_amended (dev : Device) (s : Session)
    (hok : main_startup dev = Except.ok s) :
    s.input_config.channels = 2 ∧
    s.input_config.sample_rate = (default_input_config dev).sample_rate ∧
    s.input_config.buffer_size = (default_input_config dev).buffer_size ∧
    s.output_config = s.input_config := by
  unfold main_startup at hok
  by_cases hf : dev.sample_format = sample_format_name
  · rw [if_pos hf] at hok
    dsimp only at hok
    split at hok
    · injection hok with hs
      subst hs
      simp [make_config, default_input_config]
    · exact absurd hok (by simp)
  · rw [if_neg hf] at hok
    exact absurd hok (by simp)

/-- Witness for C8 (amended) at a device whose default input
configuration has 1 channel and sample rate 0. -/
theorem c8_witness :
    (({ input_config := { channels := 2, sample_rate := 0, buffer_size := none }
        output_config := { channels := 2, sample_rate := 0, buffer_size := none }
        ring := { capacity := 0, data := [] } } : Session).input_config.channels = 2) ∧
    (({ input_config := { channels := 2, sample_rate := 0, buffer_size := none }
        output_config := { channels := 2, sample_rate := 0, buffer_size := none }
        ring := { capacity := 0, data := [] } } : Session).input_config.sample_rate =
      (default_input_config { sample_format := "i32"
                              default_channels := 1
                              default_sample_rate := 0
                              default_buffer_size := none }).sample_rate) ∧
    (({ input_config := { channels := 2, sample_rate := 0, buffer_size := none }
        output_config := { channels := 2, sample_rate := 0, buffer_size := none }
        ring := { capacity := 0, data := [] } } : Session).input_config.buffer_size =
      (default_input_config { sample_format := "i32"
                              default_channels := 1
                              default_sample_rate := 0
                              default_buffer_size := none }).buffer_size) ∧
    (({ input_config := { channels := 2, sample_rate := 0, buffer_size := none }
        output_config := { channels := 2, sample_rate := 0, buffer_size := none }
        ring := { capacity := 0, data := [] } } : Session).output_config =
      ({ input_config := { channels := 2, sample_rate := 0, buffer_size := none }
         output_config := { channels := 2, sample_rate := 0, buffer_size := none }
         ring := { capacity := 0, data := [] } } : Session).input_config) :=
  c8_amended { sample_format := "i32"
               default_channels := 1
               default_sample_rate := 0
               default_buffer_size := none }
    { input_config := { channels := 2, sample_rate := 0, buffer_size := none }
      output_config := { channels := 2, sample_rate := 0, buffer_size := none }
      ring := { capacity := 0, data := [] } }
    (by norm_num [main_startup, make_config, default_input_config, sample_format_name,
      main_latency_ms, latency_samples, latency_frames, prefill, HeapRb.new])

/-- C10: in the sequential model of one playback callback invocation with
no concurrent pushes, the output block of length `len` is exactly the
`min(len, occupancy)` oldest buffered samples in FIFO order followed by
zeros, the buffer afterwards holds the remaining `occupancy - len`
samples (0 if the buffer drained), and the underflow diagnostic fires if
and only if `len` exceeds the occupancy at the start of the
invocation. -/
theorem c10_playback_model (rb : HeapRb) (len : Nat) :
    output_data_fn rb len =
      (rb.data.take len ++ List.replicate (len - rb.occupancy) 0,
       { capacity := rb.capacity, data := rb.data.drop len },
       decide (rb.occupancy < len)) := by
  obtain ⟨cap, l⟩ := rb
  simpa [HeapRb.occupancy] using output_data_fn_eq len cap l
